import Mathlib

/-!
# Verification of the wallet/transaction session core

Shallow embedding of the wallet dashboard's session core: the address and
amount validators, the balance formatting pipeline, the session state
machine driven by `page.tsx`, the transfer submission flow of the
`SendTransaction` component, and the wallet event listener registry.

JavaScript strings are embedded as Lean `String` (with character-level
work done on `String.data : List Char`); JavaScript numbers that the code
compares against `NaN` and `0` are embedded exactly (sign/mantissa/
exponent), machine integers as `Nat`, and `null`/`undefined` as `Option`.
-/

namespace Web3

/-! ## Character and digit utilities -/

/-- Value of a decimal digit character (`'0'` ↦ 0, …, `'9'` ↦ 9). -/
def charVal (c : Char) : Nat := c.toNat - 48

/-- Decimal digit character test (`'0'`..`'9'`). -/
def isDigitChar (c : Char) : Bool := 48 ≤ c.toNat && c.toNat ≤ 57

/-- Hexadecimal digit character test (`0-9`, `a-f`, `A-F`). -/
def isHexDigitChar (c : Char) : Bool :=
  isDigitChar c || (97 ≤ c.toNat && c.toNat ≤ 102) || (65 ≤ c.toNat && c.toNat ≤ 70)

/-- The decimal digit character for a value `d < 10`. -/
def digitChar : Nat → Char
  | 0 => '0' | 1 => '1' | 2 => '2' | 3 => '3' | 4 => '4'
  | 5 => '5' | 6 => '6' | 7 => '7' | 8 => '8' | _ => '9'

/-- Numeric value of a list of decimal digit characters (most significant first). -/
def digitsToNat (l : List Char) : Nat := l.foldl (fun acc c => acc * 10 + charVal c) 0

/-- Decimal digit string of `n`, via explicit fuel (structural recursion so that
concrete instances reduce in the kernel). -/
def natDigitsAux : Nat → Nat → List Char
  | 0, _ => []
  | f + 1, n => if n < 10 then [digitChar n] else natDigitsAux f (n / 10) ++ [digitChar (n % 10)]

/-- Decimal digit string of `n` (e.g. `natDigits 120 = "120".data`). -/
def natDigits (n : Nat) : List Char := natDigitsAux (n + 1) n

theorem charVal_digitChar {d : Nat} (h : d < 10) : charVal (digitChar d) = d := by
  interval_cases d <;> rfl

theorem isDigitChar_digitChar {d : Nat} (h : d < 10) : isDigitChar (digitChar d) = true := by
  interval_cases d <;> rfl

theorem digitChar_ne_dot (d : Nat) : digitChar d ≠ '.' := by
  unfold digitChar
  split <;> decide

theorem charVal_lt_ten {c : Char} (h : isDigitChar c = true) : charVal c < 10 := by
  simp only [isDigitChar, Bool.and_eq_true, decide_eq_true_eq] at h
  simp only [charVal]
  omega

theorem isDigitChar_ne_dot {c : Char} (h : isDigitChar c = true) : c ≠ '.' := by
  intro he
  subst he
  simp [isDigitChar] at h

theorem digitsToNat_nil : digitsToNat [] = 0 := rfl

theorem digitsToNat_foldl (l : List Char) (acc : Nat) :
    l.foldl (fun acc c => acc * 10 + charVal c) acc = acc * 10 ^ l.length + digitsToNat l := by
  induction l generalizing acc with
  | nil => simp [digitsToNat]
  | cons c t ih =>
    simp only [List.foldl_cons, List.length_cons, digitsToNat]
    rw [ih (acc * 10 + charVal c), ih (0 * 10 + charVal c)]
    ring

theorem digitsToNat_cons (c : Char) (t : List Char) :
    digitsToNat (c :: t) = charVal c * 10 ^ t.length + digitsToNat t := by
  simpa [digitsToNat] using digitsToNat_foldl t (charVal c)

theorem digitsToNat_append (a b : List Char) :
    digitsToNat (a ++ b) = digitsToNat a * 10 ^ b.length + digitsToNat b := by
  simpa [digitsToNat, List.foldl_append] using digitsToNat_foldl b (digitsToNat a)

theorem digitsToNat_lt (l : List Char) (h : ∀ c ∈ l, isDigitChar c = true) :
    digitsToNat l < 10 ^ l.length := by
  induction l with
  | nil => simp [digitsToNat]
  | cons c t ih =>
    rw [digitsToNat_cons]
    have hc : charVal c < 10 := charVal_lt_ten (h c (List.mem_cons_self c t))
    have ht : digitsToNat t < 10 ^ t.length := ih fun x hx => h x (List.mem_cons_of_mem c hx)
    calc charVal c * 10 ^ t.length + digitsToNat t
        < charVal c * 10 ^ t.length + 10 ^ t.length := by omega
      _ = (charVal c + 1) * 10 ^ t.length := by ring
      _ ≤ 10 * 10 ^ t.length := Nat.mul_le_mul_right _ (by omega)
      _ = 10 ^ (c :: t).length := by rw [List.length_cons]; ring

theorem digitsToNat_all_zero {l : List Char} (h : ∀ c ∈ l, c = '0') : digitsToNat l = 0 := by
  induction l with
  | nil => rfl
  | cons c t ih =>
    rw [digitsToNat_cons, h c (List.mem_cons_self c t)]
    have := ih fun x hx => h x (List.mem_cons_of_mem c hx)
    simp [charVal, this]

theorem lt_ten_pow_succ (n : Nat) : n < 10 ^ (n + 1) :=
  lt_of_lt_of_le (Nat.lt_pow_self (by norm_num) n)
    (Nat.pow_le_pow_right (by norm_num) (by omega))

theorem natDigitsAux_spec {f n : Nat} (hn : n < 10 ^ f) :
    digitsToNat (natDigitsAux f n) = n ∧ (∀ c ∈ natDigitsAux f n, isDigitChar c = true) := by
  induction f generalizing n with
  | zero =>
    simp only [pow_zero, Nat.lt_one_iff] at hn
    subst hn
    exact ⟨rfl, by simp [natDigitsAux]⟩
  | succ f ih =>
    by_cases h10 : n < 10
    · refine ⟨?_, ?_⟩
      · simp [natDigitsAux, h10, digitsToNat_cons, charVal_digitChar h10, digitsToNat_nil]
      · intro c hc
        simp only [natDigitsAux, if_pos h10, List.mem_singleton] at hc
        subst hc
        exact isDigitChar_digitChar h10
    · have hdiv : n / 10 < 10 ^ f := by
        rw [Nat.div_lt_iff_lt_mul (by norm_num)]
        calc n < 10 ^ (f + 1) := hn
          _ = 10 ^ f * 10 := by ring
      obtain ⟨ihv, ihd⟩ := ih hdiv
      refine ⟨?_, ?_⟩
      · simp only [natDigitsAux, if_neg h10, digitsToNat_append, ihv]
        rw [digitsToNat_cons]
        simp only [List.length_nil, pow_zero, digitsToNat_nil]
        rw [charVal_digitChar (Nat.mod_lt _ (by norm_num))]
        simp [List.length_cons]
        omega
      · intro c hc
        simp only [natDigitsAux, if_neg h10, List.mem_append, List.mem_singleton] at hc
        rcases hc with hc | hc
        · exact ihd c hc
        · subst hc
          exact isDigitChar_digitChar (Nat.mod_lt _ (by norm_num))

theorem digitsToNat_natDigits (n : Nat) : digitsToNat (natDigits n) = n :=
  (natDigitsAux_spec (lt_ten_pow_succ n)).1

theorem natDigits_all_digit (n : Nat) : ∀ c ∈ natDigits n, isDigitChar c = true :=
  (natDigitsAux_spec (lt_ten_pow_succ n)).2

theorem natDigitsAux_ne_nil {f n : Nat} (hf : 1 ≤ f) (hn : n < 10 ^ f) :
    natDigitsAux f n ≠ [] := by
  induction f generalizing n with
  | zero => omega
  | succ f _ =>
    by_cases h10 : n < 10
    · simp [natDigitsAux, h10]
    · simp [natDigitsAux, h10]

theorem natDigits_ne_nil (n : Nat) : natDigits n ≠ [] :=
  natDigitsAux_ne_nil (by omega) (lt_ten_pow_succ n)

theorem natDigitsAux_length_le {f n k : Nat} (hn : n < 10 ^ f) (hk : n < 10 ^ k) (hk1 : 1 ≤ k) :
    (natDigitsAux f n).length ≤ k := by
  induction f generalizing n k with
  | zero => simp [natDigitsAux]
  | succ f ih =>
    by_cases h10 : n < 10
    · simp [natDigitsAux, h10]
      omega
    · have hk2 : 2 ≤ k := by
        by_contra hlt
        have : k = 1 := by omega
        subst this
        simp only [pow_one] at hk
        omega
      have hdivf : n / 10 < 10 ^ f := by
        rw [Nat.div_lt_iff_lt_mul (by norm_num)]
        calc n < 10 ^ (f + 1) := hn
          _ = 10 ^ f * 10 := by ring
      have hdivk : n / 10 < 10 ^ (k - 1) := by
        rw [Nat.div_lt_iff_lt_mul (by norm_num)]
        calc n < 10 ^ k := hk
          _ = 10 ^ (k - 1) * 10 := by
            rw [← pow_succ]
            congr 1
            omega
      have := ih hdivf hdivk (by omega)
      simp only [natDigitsAux, if_neg h10, List.length_append, List.length_cons,
        List.length_nil]
      omega

theorem natDigits_length_le {n k : Nat} (hk : n < 10 ^ k) (hk1 : 1 ≤ k) :
    (natDigits n).length ≤ k :=
  natDigitsAux_length_le (lt_ten_pow_succ n) hk hk1

/-! ## `String.prototype.split(".")` -/

/-- Embedding of JavaScript `s.split(".")` on the character list of `s`. -/
def splitOnDot : List Char → List (List Char)
  | [] => [[]]
  | c :: rest =>
    if c = '.' then [] :: splitOnDot rest
    else
      match splitOnDot rest with
      | [] => [[c]]
      | p :: ps => (c :: p) :: ps

theorem splitOnDot_ne_nil (l : List Char) : splitOnDot l ≠ [] := by
  induction l with
  | nil => simp [splitOnDot]
  | cons c rest ih =>
    by_cases hc : c = '.'
    · simp [splitOnDot, hc]
    · simp only [splitOnDot, if_neg hc]
      rcases h : splitOnDot rest with _ | ⟨p, ps⟩
      · simp
      · simp

theorem splitOnDot_no_dot {l : List Char} (h : '.' ∉ l) : splitOnDot l = [l] := by
  induction l with
  | nil => rfl
  | cons c rest ih =>
    have hc : c ≠ '.' := fun he => h (he ▸ List.mem_cons_self c rest)
    have hrest : '.' ∉ rest := fun hm => h (List.mem_cons_of_mem c hm)
    simp [splitOnDot, hc, ih hrest]

theorem splitOnDot_append {a : List Char} (b : List Char) (h : '.' ∉ a) :
    splitOnDot (a ++ '.' :: b) = a :: splitOnDot b := by
  induction a with
  | nil => simp [splitOnDot]
  | cons c rest ih =>
    have hc : c ≠ '.' := fun he => h (he ▸ List.mem_cons_self c rest)
    have hrest : '.' ∉ rest := fun hm => h (List.mem_cons_of_mem c hm)
    simp only [List.cons_append, splitOnDot, if_neg hc]
    rw [show rest.append ('.' :: b) = rest ++ '.' :: b from rfl, ih hrest]

/-! ## Trailing-zero trimming and 18-digit padding -/

/-- Drop trailing `'0'` characters. -/
def trimTrailingZeros (l : List Char) : List Char :=
  (l.reverse.dropWhile (fun c => c = '0')).reverse

/-- Left-pad a digit list with `'0'` to 18 characters. -/
def padTo18 (l : List Char) : List Char := List.replicate (18 - l.length) '0' ++ l

theorem trimTrailingZeros_decomp (l : List Char) :
    ∃ z, l = trimTrailingZeros l ++ z ∧ ∀ c ∈ z, c = '0' := by
  refine ⟨(l.reverse.takeWhile (fun c => c = '0')).reverse, ?_, ?_⟩
  · conv_lhs => rw [← List.reverse_reverse l, ← List.takeWhile_append_dropWhile
      (p := fun c => c = '0') (l := l.reverse)]
    rw [List.reverse_append]
    rfl
  · intro c hc
    rw [List.mem_reverse] at hc
    have := List.mem_takeWhile_imp hc
    simpa using this

theorem padTo18_length {l : List Char} (h : l.length ≤ 18) : (padTo18 l).length = 18 := by
  simp [padTo18]
  omega

theorem padTo18_all_digit {l : List Char} (h : ∀ c ∈ l, isDigitChar c = true) :
    ∀ c ∈ padTo18 l, isDigitChar c = true := by
  intro c hc
  rcases List.mem_append.mp hc with hz | hl
  · have : c = '0' := List.eq_of_mem_replicate hz
    subst this
    rfl
  · exact h c hl

theorem digitsToNat_padTo18 (l : List Char) : digitsToNat (padTo18 l) = digitsToNat l := by
  rw [padTo18, digitsToNat_append, digitsToNat_all_zero (fun c hc => List.eq_of_mem_replicate hc)]
  simp

/-! ## `formatEther` and `getBalance`

`getBalance` (ethereum helper library, lines 137-152) fetches the raw wei
balance, formats it with ethers' `formatEther`, splits on `"."`, and keeps
at most the first four fractional characters, returning the whole part
unchanged when there is no fractional part. -/

/-- Modelled from the spec: ethers `formatEther` is not part of this
repository; per the spec it is the "standard formatting of the underlying
integer balance" with 18 decimals — integer part, then the fractional part
with trailing zeros removed, omitted entirely when zero. -/
def formatEther (wei : Nat) : String :=
  let whole := natDigits (wei / 10 ^ 18)
  let frac := trimTrailingZeros (padTo18 (natDigits (wei % 10 ^ 18)))
  if frac = [] then ⟨whole⟩ else ⟨whole ++ '.' :: frac⟩

/-- Embedding of `getBalance` (ethereum helper library, lines 137-152),
with the provider's raw wei balance supplied as the argument:
`formatEther`, split on `"."`, return whole part if the fractional part is
missing or empty, else whole part plus the first four fractional characters. -/
def getBalance (wei : Nat) : String :=
  let formattedBalance := formatEther wei
  match splitOnDot formattedBalance.data with
  | [] => ""
  | [whole] => ⟨whole⟩
  | whole :: decimal :: _ => if decimal = [] then ⟨whole⟩ else ⟨whole ++ '.' :: decimal.take 4⟩

/-- Wei value denoted by a decimal string of the shape `"w"` or `"w.f"`
with `f` at most 18 digits (the shapes `getBalance` emits). -/
def weiValue (s : String) : Option Nat :=
  match splitOnDot s.data with
  | [w] =>
    if w ≠ [] && w.all isDigitChar then some (digitsToNat w * 10 ^ 18) else none
  | [w, f] =>
    if (w ≠ [] && w.all isDigitChar) && (f.all isDigitChar && f.length ≤ 18) then
      some (digitsToNat w * 10 ^ 18 + digitsToNat f * 10 ^ (18 - f.length))
    else none
  | _ => none

theorem data_mk (l : List Char) : (⟨l⟩ : String).data = l := rfl

theorem digitsToNat_take {l : List Char} (hd : ∀ c ∈ l, isDigitChar c = true)
    (k : Nat) (_hk : k ≤ l.length) :
    digitsToNat (l.take k) = digitsToNat l / 10 ^ (l.length - k) := by
  have hsplit : digitsToNat l
      = digitsToNat (l.take k) * 10 ^ (l.length - k) + digitsToNat (l.drop k) := by
    conv_lhs => rw [← List.take_append_drop k l]
    rw [digitsToNat_append, List.length_drop]
  have hlt : digitsToNat (l.drop k) < 10 ^ (l.length - k) := by
    have := digitsToNat_lt (l.drop k) (fun c hc => hd c (List.drop_subset k l hc))
    rwa [List.length_drop] at this
  rw [hsplit, Nat.add_comm, Nat.mul_comm,
    Nat.add_mul_div_left _ _ (Nat.pos_pow_of_pos _ (by norm_num)),
    Nat.div_eq_of_lt hlt, Nat.zero_add]

theorem trunc_split (wei : Nat) :
    wei / 10 ^ 14 * 10 ^ 14 = wei / 10 ^ 18 * 10 ^ 18 + wei % 10 ^ 18 / 10 ^ 14 * 10 ^ 14 := by
  conv_lhs => rw [← Nat.div_add_mod wei (10 ^ 18)]
  have h1 : 10 ^ 18 * (wei / 10 ^ 18) + wei % 10 ^ 18
      = 10 ^ 14 * (wei / 10 ^ 18 * 10 ^ 4) + wei % 10 ^ 18 := by ring
  rw [h1, Nat.mul_add_div (by positivity), Nat.add_mul]
  ring

theorem getBalance_shape (wei : Nat) :
    getBalance wei =
      if trimTrailingZeros (padTo18 (natDigits (wei % 10 ^ 18))) = [] then
        (⟨natDigits (wei / 10 ^ 18)⟩ : String)
      else
        ⟨natDigits (wei / 10 ^ 18) ++ '.' ::
          (trimTrailingZeros (padTo18 (natDigits (wei % 10 ^ 18)))).take 4⟩ := by
  have hWdig := natDigits_all_digit (wei / 10 ^ 18)
  have hWnodot : '.' ∉ natDigits (wei / 10 ^ 18) :=
    fun hm => isDigitChar_ne_dot (hWdig _ hm) rfl
  obtain ⟨Z, hPZ, _⟩ := trimTrailingZeros_decomp (padTo18 (natDigits (wei % 10 ^ 18)))
  have hTdig : ∀ c ∈ trimTrailingZeros (padTo18 (natDigits (wei % 10 ^ 18))),
      isDigitChar c = true := fun c hc =>
    padTo18_all_digit (natDigits_all_digit _) c (by rw [hPZ]; exact List.mem_append_left _ hc)
  have hTnodot : '.' ∉ trimTrailingZeros (padTo18 (natDigits (wei % 10 ^ 18))) :=
    fun hm => isDigitChar_ne_dot (hTdig _ hm) rfl
  by_cases hT : trimTrailingZeros (padTo18 (natDigits (wei % 10 ^ 18))) = []
  · simp only [getBalance, formatEther, if_pos hT, data_mk]
    rw [splitOnDot_no_dot hWnodot]
  · simp only [getBalance, formatEther, if_neg hT, data_mk]
    rw [splitOnDot_append _ hWnodot, splitOnDot_no_dot hTnodot]
    exact if_neg hT

theorem weiValue_whole {W : List Char} (hne : W ≠ [])
    (hdig : ∀ c ∈ W, isDigitChar c = true) :
    weiValue ⟨W⟩ = some (digitsToNat W * 10 ^ 18) := by
  have hnodot : '.' ∉ W := fun hm => isDigitChar_ne_dot (hdig _ hm) rfl
  simp only [weiValue, data_mk]
  rw [splitOnDot_no_dot hnodot]
  simp only [List.all_eq_true]
  rw [if_pos]
  simp [hne]
  exact hdig

theorem weiValue_fracShape {W T : List Char} (hWne : W ≠ [])
    (hWdig : ∀ c ∈ W, isDigitChar c = true)
    (hTdig : ∀ c ∈ T, isDigitChar c = true) (hTlen : T.length ≤ 18) :
    weiValue ⟨W ++ '.' :: T⟩
      = some (digitsToNat W * 10 ^ 18 + digitsToNat T * 10 ^ (18 - T.length)) := by
  have hWnodot : '.' ∉ W := fun hm => isDigitChar_ne_dot (hWdig _ hm) rfl
  have hTnodot : '.' ∉ T := fun hm => isDigitChar_ne_dot (hTdig _ hm) rfl
  simp only [weiValue, data_mk]
  rw [splitOnDot_append _ hWnodot, splitOnDot_no_dot hTnodot]
  simp only [List.all_eq_true]
  rw [if_pos]
  simp [hWne, hTlen]
  exact ⟨hWdig, hTdig⟩

set_option maxHeartbeats 1000000 in
/-- `getBalance` renders exactly the 4-fractional-digit truncation of the
raw wei balance: never rounding, and never losing more than `10 ^ 14` wei. -/
theorem weiValue_getBalance (wei : Nat) :
    weiValue (getBalance wei) = some (wei / 10 ^ 14 * 10 ^ 14) := by
  have hq := digitsToNat_natDigits (wei / 10 ^ 18)
  have hWdig := natDigits_all_digit (wei / 10 ^ 18)
  have hWne := natDigits_ne_nil (wei / 10 ^ 18)
  have hr : wei % 10 ^ 18 < 10 ^ 18 := Nat.mod_lt _ (by positivity)
  have hNlen : (natDigits (wei % 10 ^ 18)).length ≤ 18 := natDigits_length_le hr (by norm_num)
  have hPlen : (padTo18 (natDigits (wei % 10 ^ 18))).length = 18 := padTo18_length hNlen
  have hPdig : ∀ c ∈ padTo18 (natDigits (wei % 10 ^ 18)), isDigitChar c = true :=
    padTo18_all_digit (natDigits_all_digit _)
  have hPval : digitsToNat (padTo18 (natDigits (wei % 10 ^ 18))) = wei % 10 ^ 18 := by
    rw [digitsToNat_padTo18, digitsToNat_natDigits]
  obtain ⟨Z, hPZ, hZ0⟩ := trimTrailingZeros_decomp (padTo18 (natDigits (wei % 10 ^ 18)))
  have hTdig : ∀ c ∈ trimTrailingZeros (padTo18 (natDigits (wei % 10 ^ 18))),
      isDigitChar c = true := fun c hc =>
    hPdig c (by rw [hPZ]; exact List.mem_append_left _ hc)
  have hlen : (trimTrailingZeros (padTo18 (natDigits (wei % 10 ^ 18)))).length + Z.length = 18 := by
    have := congrArg List.length hPZ
    rw [List.length_append] at this
    omega
  have hrT : digitsToNat (trimTrailingZeros (padTo18 (natDigits (wei % 10 ^ 18))))
      * 10 ^ Z.length = wei % 10 ^ 18 := by
    have h2 : digitsToNat (padTo18 (natDigits (wei % 10 ^ 18)))
        = digitsToNat (trimTrailingZeros (padTo18 (natDigits (wei % 10 ^ 18)))) * 10 ^ Z.length := by
      conv_lhs => rw [hPZ]
      rw [digitsToNat_append, digitsToNat_all_zero hZ0, Nat.add_zero]
    rw [← h2, hPval]
  by_cases hT : trimTrailingZeros (padTo18 (natDigits (wei % 10 ^ 18))) = []
  · rw [getBalance_shape, if_pos hT, weiValue_whole hWne hWdig, hq]
    have hr0 : wei % 10 ^ 18 = 0 := by
      rw [← hrT, hT]
      simp [digitsToNat]
    rw [trunc_split wei, hr0]
    simp
  · have hTdig4 : ∀ c ∈ (trimTrailingZeros (padTo18 (natDigits (wei % 10 ^ 18)))).take 4,
        isDigitChar c = true := fun c hc => hTdig c (List.take_subset 4 _ hc)
    have hTlen4 : ((trimTrailingZeros (padTo18 (natDigits (wei % 10 ^ 18)))).take 4).length ≤ 18 := by
      rw [List.length_take]
      omega
    rw [getBalance_shape, if_neg hT]
    rw [weiValue_fracShape hWne hWdig hTdig4 hTlen4, hq, trunc_split wei]
    have hgoal : digitsToNat ((trimTrailingZeros (padTo18 (natDigits (wei % 10 ^ 18)))).take 4)
        * 10 ^ (18 - ((trimTrailingZeros (padTo18 (natDigits (wei % 10 ^ 18)))).take 4).length)
        = wei % 10 ^ 18 / 10 ^ 14 * 10 ^ 14 := by
      by_cases hT4 : (trimTrailingZeros (padTo18 (natDigits (wei % 10 ^ 18)))).length ≤ 4
      · rw [List.take_of_length_le hT4]
        conv_rhs => rw [← hrT]
        have hrw : digitsToNat (trimTrailingZeros (padTo18 (natDigits (wei % 10 ^ 18))))
              * 10 ^ Z.length
            = digitsToNat (trimTrailingZeros (padTo18 (natDigits (wei % 10 ^ 18))))
              * 10 ^ (Z.length - 14) * 10 ^ 14 := by
          rw [mul_assoc, ← pow_add]
          congr 2
          omega
        rw [hrw, Nat.mul_div_cancel _ (by positivity), mul_assoc, ← pow_add]
        congr 2
        omega
      · push_neg at hT4
        have hlt4 : ((trimTrailingZeros (padTo18 (natDigits (wei % 10 ^ 18)))).take 4).length = 4 := by
          rw [List.length_take]
          omega
        rw [hlt4, digitsToNat_take hTdig 4 (by omega)]
        conv_rhs => rw [← hrT]
        have h10_14 : (10 : ℕ) ^ 14 = 10 ^ Z.length * 10 ^ (14 - Z.length) := by
          rw [← pow_add]
          congr 1
          omega
        conv_rhs => rw [h10_14]
        rw [mul_comm (digitsToNat _) ((10 : ℕ) ^ Z.length),
          Nat.mul_div_mul_left _ _ (by positivity)]
        have hexp : (trimTrailingZeros (padTo18 (natDigits (wei % 10 ^ 18)))).length - 4
            = 14 - Z.length := by omega
        rw [hexp, show (18 : ℕ) - 4 = 14 from rfl, ← h10_14]
    rw [hgoal]

/-! ## Address validation

`isValidAddress` (ethereum helper library, lines 416-419) returns `false`
for an empty string and otherwise delegates to ethers' `isAddress`. -/

/-- Modelled from the spec: ethers' `isAddress` is not part of this
repository; per the spec an address is valid iff it matches the 20-byte
hex-with-prefix format — 40 hexadecimal digits after the fixed 2-character
`"0x"` prefix — case-insensitively. -/
def isAddress (s : String) : Bool :=
  s.data.length = 42 && s.data.take 2 = ['0', 'x'] && (s.data.drop 2).all isHexDigitChar

/-- Embedding of `isValidAddress` (ethereum helper library, lines 416-419):
`if (!address) return false; return isAddress(address);`. -/
def isValidAddress (address : String) : Bool :=
  if address.data = [] then false else isAddress address

/-! ## Amount validation

`validateAmount` (ethereum helper library, lines 431-453) checks, in
order: blank input, `parseFloat` yielding `NaN`, parsed value `≤ 0`, and
more than 18 characters after the first `"."`. -/

/-- JavaScript whitespace characters recognized by `trim` (ASCII range). -/
def isWsChar (c : Char) : Bool :=
  c.toNat = 32 || (9 ≤ c.toNat && c.toNat ≤ 13)

/-- Embedding of JavaScript `s.trim()` on the character list of `s`. -/
def jsTrim (l : List Char) : List Char :=
  ((l.dropWhile isWsChar).reverse.dropWhile isWsChar).reverse

/-- A JavaScript number as far as the validator observes it: `NaN`, an
infinity, or an exact finite value `(-1)^neg · mantissa · 10^scale`.
Exact-value semantics: binary floating-point rounding, overflow and
underflow of extreme literals are not modelled (the validator only tests
`isNaN` and `≤ 0`, which the exponent cannot affect for finite values). -/
inductive JsNumber where
  | nan
  | infinite (neg : Bool)
  | finite (neg : Bool) (mantissa : Nat) (scale : Int)
deriving DecidableEq

/-- Leading-sign parsing for `parseFloat`: returns (negative?, rest). -/
def parseSign : List Char → Bool × List Char
  | '+' :: rest => (false, rest)
  | '-' :: rest => (true, rest)
  | l => (false, l)

/-- Exponent-part parsing for `parseFloat`: on `e`/`E` followed by an
optional sign and digits, returns (negative exponent?, exponent digits);
an exponent marker without digits is ignored, as in JavaScript. -/
def parseExpPart (l : List Char) : Bool × List Char :=
  match l with
  | 'e' :: rest => parseSign rest
  | 'E' :: rest => parseSign rest
  | _ => (false, [])

/-- Embedding of JavaScript `parseFloat`: skip leading whitespace, read an
optional sign, then either the literal `Infinity` or a decimal significand
`digits [. digits]` with an optional exponent; trailing garbage is
ignored; `NaN` when no digits can be read. -/
def jsParseFloat (s : String) : JsNumber :=
  let l := s.data.dropWhile isWsChar
  let (neg, l1) := parseSign l
  if l1.take 8 = "Infinity".data then .infinite neg
  else
    let d1 := l1.takeWhile isDigitChar
    let r1 := l1.dropWhile isDigitChar
    let d2 := match r1 with
      | '.' :: rest => rest.takeWhile isDigitChar
      | _ => []
    if d1 = [] && d2 = [] then .nan
    else
      let r2 := match r1 with
        | '.' :: rest => rest.dropWhile isDigitChar
        | _ => r1
      let (eneg, edig) := parseExpPart r2
      let e : Int := if edig.takeWhile isDigitChar = [] then 0
        else (if eneg then -1 else 1) * (digitsToNat (edig.takeWhile isDigitChar) : Int)
      .finite neg (digitsToNat (d1 ++ d2)) (e - d2.length)

/-- JavaScript `isNaN` on the observed number. -/
def jsIsNaN : JsNumber → Bool
  | .nan => true
  | _ => false

/-- JavaScript `x <= 0` on the observed number (`NaN <= 0` is `false`;
a finite value is `≤ 0` iff its mantissa is zero or its sign negative —
the power-of-ten scale cannot change sign). -/
def jsLe0 : JsNumber → Bool
  | .nan => false
  | .infinite neg => neg
  | .finite neg mantissa _ => neg || mantissa = 0

/-- Result shape of `validateAmount`: `{ isValid, error }`. -/
structure AmountValidation where
  isValid : Bool
  error : Option String
deriving DecidableEq

/-- Embedding of `validateAmount` (ethereum helper library, lines
431-453). -/
def validateAmount (amount : String) : AmountValidation :=
  if amount.data = [] || jsTrim amount.data = [] then
    ⟨false, some "Amount is required"⟩
  else
    let numAmount := jsParseFloat amount
    if jsIsNaN numAmount then ⟨false, some "Invalid amount format"⟩
    else if jsLe0 numAmount then ⟨false, some "Amount must be greater than 0"⟩
    else
      match (splitOnDot amount.data)[1]? with
      | some d => if !d.isEmpty && d.length > 18 then
          ⟨false, some "Too many decimal places (max 18)"⟩
        else ⟨true, none⟩
      | none => ⟨true, none⟩

/-! ## Error classification

`parseWeb3Error` (lines 312-349) and `parseTransactionError` (lines
512-563) of the ethereum helper library map raw provider errors to
user-facing messages. A raw error is embedded by the fields the parsers
inspect: a numeric or string `code`, a `message`, and a `reason`
(the `typeof error === "string"` fast path of `parseWeb3Error` carries no
claim and is not modelled). -/

/-- A provider error code: MetaMask numeric codes or ethers string codes. -/
inductive ErrCode where
  | num (n : Int)
  | str (s : String)
deriving DecidableEq

/-- The fields of a raw provider/transport error that the parsers read. -/
structure RawError where
  code : Option ErrCode
  message : Option String
  reason : Option String
deriving DecidableEq

/-- Substring occurrence test (JavaScript `String.prototype.includes`). -/
def isSubList : List Char → List Char → Bool
  | needle, [] => needle.isEmpty
  | needle, hay@(_ :: tail) => needle.isPrefixOf hay || isSubList needle tail

/-- JavaScript `error.message?.includes(sub)`. -/
def msgContains (e : RawError) (sub : String) : Bool :=
  match e.message with
  | some m => isSubList sub.data m.data
  | none => false

/-- Embedding of `parseWeb3Error` (ethereum helper library, lines 312-349). -/
def parseWeb3Error (e : RawError) : String :=
  if e.code == some (.num 4001) then
    "Connection rejected. Please approve the connection in MetaMask."
  else if e.code == some (.num 4100) then "Unauthorized. Please connect your wallet first."
  else if e.code == some (.num 4200) then "This action is not supported by your wallet."
  else if e.code == some (.num 4900) then "Wallet is disconnected. Please reconnect."
  else if e.code == some (.num 4901) then
    "Disconnected from the chain. Please check your network."
  else if e.code == some (.num 4902) then
    "Network not recognized. Please add it to your wallet."
  else
    match e.message with
    | some m => if msgContains e "user rejected" then "Request cancelled by user." else m
    | none => "An unexpected error occurred. Please try again."

/-- Embedding of `parseTransactionError` (ethereum helper library, lines
512-563). -/
def parseTransactionError (e : RawError) : String :=
  if e.code == some (.num 4001) || e.code == some (.str "ACTION_REJECTED")
      || msgContains e "user rejected" || msgContains e "User denied" then
    "Transaction cancelled by user."
  else if e.code == some (.str "INSUFFICIENT_FUNDS") || msgContains e "insufficient funds"
      || msgContains e "Insufficient funds" then
    "Insufficient ETH balance to complete this transaction."
  else if msgContains e "gas" then "Failed to estimate gas. The transaction may fail."
  else if msgContains e "nonce" then "Transaction nonce error. Please try again."
  else if msgContains e "network" || e.code == some (.str "NETWORK_ERROR") then
    "Network error. Please check your connection."
  else
    match e.reason with
    | some r => r
    | none =>
      match e.message with
      | some m => if m.data.length > 100 then (⟨m.data.take 100⟩ : String) ++ "..." else m
      | none => "Transaction failed. Please try again."

/-! ## Session state machine (`page.tsx`)

`WalletState` mirrors `INITIAL_WALLET_STATE` and the `WalletState`
interface of the type definitions module; the operations mirror the
`Dashboard` callbacks, with every provider response supplied as an
explicit argument. Each operation returns the successor state plus the
list of externally visible effects it performs. -/

/-- Externally visible effects of the session/transfer operations. -/
inductive Effect where
  | requestAccounts
  | sendEth
  | toast (message kind : String)
deriving DecidableEq

/-- Mirror of the `WalletState` interface (`null` ↦ `none`). -/
structure WalletState where
  isConnected : Bool
  address : Option String
  chainId : Option String
  balance : Option String
  isLoading : Bool
  error : Option String
deriving DecidableEq

/-- Mirror of `INITIAL_WALLET_STATE`. -/
def INITIAL_WALLET_STATE : WalletState :=
  { isConnected := false, address := none, chainId := none, balance := none,
    isLoading := false, error := none }

/-- The message of the error thrown by `handleConnect` when MetaMask is
absent. -/
def notInstalledMsg : String :=
  "MetaMask is not installed. Please install MetaMask to continue."

/-- The synchronous part of `handleConnect` (`page.tsx`, lines 72-110), up
to the first suspension: the re-entrancy guard on `isLoading`, the
`isLoading`/`error` update, the installation check (whose thrown error is
caught and classified synchronously), and — when installed — the issuing
of the provider's `eth_requestAccounts` request inside `connectWallet`. -/
def handleConnectStart (installed : Bool) (s : WalletState) : WalletState × List Effect :=
  if s.isLoading then (s, [])
  else
    let s1 := { s with isLoading := true, error := none }
    if installed then (s1, [.requestAccounts])
    else
      let msg := parseWeb3Error ⟨none, some notInstalledMsg, none⟩
      ({ s1 with isLoading := false, error := some msg }, [.toast msg "error"])

/-- Outcome of the awaited part of `handleConnect`: the provider either
yields address, chain id and balance, or some await rejects with a raw
error. -/
inductive ConnectResult where
  | success (address chainId balance : String)
  | failure (e : RawError)

/-- The asynchronous continuation of `handleConnect` (`page.tsx`, lines
87-109): on success populate the four fields and toast; on failure store
the classified message and toast it. -/
def handleConnectFinish (r : ConnectResult) (s : WalletState) : WalletState × List Effect :=
  match r with
  | .success address chainId balance =>
    ({ s with
        isConnected := true,
        address := some address,
        chainId := some chainId,
        balance := some balance,
        isLoading := false },
      [.toast "Wallet connected successfully!" "success"])
  | .failure e =>
    ({ s with isLoading := false, error := some (parseWeb3Error e) },
      [.toast (parseWeb3Error e) "error"])

/-- Embedding of `handleDisconnect` (`page.tsx`, lines 116-119). -/
def handleDisconnect (_s : WalletState) : WalletState × List Effect :=
  (INITIAL_WALLET_STATE, [.toast "Wallet disconnected" "info"])

/-- Embedding of `refreshBalance` (`page.tsx`, lines 57-67); `fetched` is
the provider's response, `none` when `getBalance` rejects (the failure is
only logged). -/
def refreshBalance (fetched : Option String) (s : WalletState) : WalletState :=
  match fetched with
  | some balance => { s with balance := some balance }
  | none => s

/-- Embedding of `handleAccountsChanged` (`page.tsx`, lines 137-152);
`fetched` is the balance response used by the inner `refreshBalance`. -/
def handleAccountsChanged (accounts : List String) (fetched : Option String)
    (s : WalletState) : WalletState × List Effect :=
  match accounts with
  | [] => (INITIAL_WALLET_STATE, [.toast "Wallet disconnected" "info"])
  | newAddress :: _ =>
    if s.address ≠ some newAddress then
      (refreshBalance fetched { s with address := some newAddress },
        [.toast "Account changed" "info"])
    else (s, [])

/-- Embedding of `handleChainChanged` (`page.tsx`, lines 157-169). -/
def handleChainChanged (chainId : String) (fetched : Option String)
    (s : WalletState) : WalletState × List Effect :=
  let s1 := { s with chainId := some chainId }
  match s.address with
  | some _ => (refreshBalance fetched s1, [.toast "Network changed" "info"])
  | none => (s1, [.toast "Network changed" "info"])

/-- Embedding of `checkExistingConnection` (`page.tsx`, lines 174-204):
with a non-empty current-accounts list and successful chain-id/balance
queries (`queries`), mark Connected silently; otherwise (empty list, or a
query rejection reaching the `catch`) leave the state unchanged. -/
def checkExistingConnection (accounts : List String)
    (queries : Option (String × String)) (s : WalletState) : WalletState :=
  match accounts with
  | [] => s
  | address :: _ =>
    match queries with
    | some (chainId, balance) =>
      { s with
          isConnected := true,
          address := some address,
          chainId := some chainId,
          balance := some balance }
    | none => s

/-- The session states reachable from `INITIAL_WALLET_STATE` through the
`Dashboard` operations, with provider responses arbitrary. The
`accountsChanged`/`chainChanged` handlers fire only while connected
(`page.tsx` attaches the listeners only when `walletState.isConnected`),
and the connect continuation only runs while a connect is in flight. -/
inductive Reachable : WalletState → Prop where
  | init : Reachable INITIAL_WALLET_STATE
  | connectStart {s : WalletState} (installed : Bool) :
      Reachable s → Reachable (handleConnectStart installed s).1
  | connectFinish {s : WalletState} (r : ConnectResult) :
      Reachable s → s.isLoading = true → Reachable (handleConnectFinish r s).1
  | disconnect {s : WalletState} :
      Reachable s → Reachable (handleDisconnect s).1
  | accountsChanged {s : WalletState} (accounts : List String) (fetched : Option String) :
      Reachable s → s.isConnected = true →
      Reachable (handleAccountsChanged accounts fetched s).1
  | chainChanged {s : WalletState} (chainId : String) (fetched : Option String) :
      Reachable s → s.isConnected = true →
      Reachable (handleChainChanged chainId fetched s).1
  | refreshBal {s : WalletState} (fetched : Option String) :
      Reachable s → Reachable (refreshBalance fetched s)
  | checkExisting {s : WalletState} (accounts : List String)
      (queries : Option (String × String)) :
      Reachable s → Reachable (checkExistingConnection accounts queries s)

/-! ## Transfer state machine (`SendTransaction` component)

`TransactionState` mirrors `INITIAL_TRANSACTION_STATE` and the
`TransactionStatus` union; `handleSubmit` is embedded as a function of the
form data, the prior transaction state and the provider outcome of
`sendTransaction`/`wait`, returning the final state, the effects and the
number of `onTransactionComplete` invocations. -/

/-- Mirror of the `TransactionStatus` union. -/
inductive TxStatus where
  | idle
  | sending
  | pending
  | confirmed
  | failed
deriving DecidableEq

/-- Mirror of the `TransactionState` interface. -/
structure TransactionState where
  status : TxStatus
  hash : Option String
  error : Option String
deriving DecidableEq

/-- Mirror of `INITIAL_TRANSACTION_STATE`. -/
def INITIAL_TRANSACTION_STATE : TransactionState :=
  { status := .idle, hash := none, error := none }

/-- Mirror of the `TransactionFormData` interface. -/
structure TransactionFormData where
  recipient : String
  amount : String
deriving DecidableEq

/-- Embedding of `validateRecipient` (`SendTransaction` component, lines
55-63). -/
def validateRecipient (address : String) : Option String :=
  if jsTrim address.data = [] then some "Recipient address is required"
  else if !isValidAddress address then some "Invalid Ethereum address"
  else none

/-- Embedding of `validateForm` (`SendTransaction` component, lines
92-102): both fields must pass. -/
def validateForm (fd : TransactionFormData) : Bool :=
  validateRecipient fd.recipient == none && (validateAmount fd.amount).isValid

/-- The local validation of `sendTransaction` (ethereum helper library,
lines 469-504): the thrown message when validation fails (before any
provider interaction), else no error plus the provider send. -/
def sendTransactionCheck (recipientAddress amountInEth : String) :
    Option String × List Effect :=
  if !isValidAddress recipientAddress then (some "Invalid recipient address", [])
  else if !(validateAmount amountInEth).isValid then
    (some ((validateAmount amountInEth).error.getD "Invalid amount"), [])
  else (none, [.sendEth])

/-- Outcome of the awaited `wait()` inside `handleSubmit`: a mined receipt
with its status field, a `null` receipt, or a rejection. -/
inductive WaitOutcome where
  | mined (status : Nat)
  | nullReceipt
  | thrown (e : RawError)

/-- Outcome of the awaited `sendTransaction(...)` call: rejection at
submission time, or acceptance with a transaction hash followed by a
`wait()` outcome. -/
inductive SendTxOutcome where
  | rejected (e : RawError)
  | submitted (hash : String) (w : WaitOutcome)

/-- The observable result of one `handleSubmit` run. -/
structure SubmitResult where
  txState : TransactionState
  formData : TransactionFormData
  effects : List Effect
  completions : Nat
deriving DecidableEq

/-- Embedding of `handleSubmit` (`SendTransaction` component, lines
107-177), given the provider outcome `o`: early return when validation
fails; otherwise sending → pending → confirmed (clearing the form and
firing `onTransactionComplete` once) when the receipt has status 1,
failed with `"Transaction failed on chain"` (keeping the hash) on a
missing or non-1-status receipt, and failed with the classified message
(and `hash: null`) when an await rejects. -/
def handleSubmit (fd : TransactionFormData) (ts : TransactionState)
    (o : SendTxOutcome) : SubmitResult :=
  if !validateForm fd then ⟨ts, fd, [], 0⟩
  else
    match o with
    | .rejected e =>
      ⟨⟨.failed, none, some (parseTransactionError e)⟩, fd,
        [.sendEth, .toast (parseTransactionError e) "error"], 0⟩
    | .submitted hash w =>
      match w with
      | .mined 1 =>
        ⟨⟨.confirmed, some hash, none⟩, ⟨"", ""⟩,
          [.sendEth, .toast "Transaction submitted! Waiting for confirmation..." "info",
            .toast "Transaction confirmed successfully!" "success"], 1⟩
      | .mined _ =>
        ⟨⟨.failed, some hash, some "Transaction failed on chain"⟩, fd,
          [.sendEth, .toast "Transaction submitted! Waiting for confirmation..." "info",
            .toast "Transaction failed on chain" "error"], 0⟩
      | .nullReceipt =>
        ⟨⟨.failed, some hash, some "Transaction failed on chain"⟩, fd,
          [.sendEth, .toast "Transaction submitted! Waiting for confirmation..." "info",
            .toast "Transaction failed on chain" "error"], 0⟩
      | .thrown e =>
        ⟨⟨.failed, none, some (parseTransactionError e)⟩, fd,
          [.sendEth, .toast "Transaction submitted! Waiting for confirmation..." "info",
            .toast (parseTransactionError e) "error"], 0⟩

/-- Embedding of `handleReset` (`SendTransaction` component, lines
182-186). -/
def handleReset : TransactionFormData × TransactionState :=
  (⟨"", ""⟩, INITIAL_TRANSACTION_STATE)

/-! ## Wallet event listeners (`setupWalletListeners`)

The provider's emitter registration list is embedded as a list of
(event name, handler identity) pairs; `on` appends, `removeListener`
removes the first matching registration (a no-op when absent). The three
wrapper handlers created by one `setupWalletListeners` call are identified
by the `Nat`s passed in. -/

/-- The provider's listener registration list. -/
abbrev Registry := List (String × Nat)

/-- `ethereum.on(event, handler)`. -/
def addListener (reg : Registry) (event : String) (id : Nat) : Registry :=
  reg ++ [(event, id)]

/-- `ethereum.removeListener(event, handler)`: removes the first matching
registration, no-op when the handler is not registered. -/
def removeListener (reg : Registry) (event : String) (id : Nat) : Registry :=
  match reg with
  | [] => []
  | p :: rest => if p = (event, id) then rest else p :: removeListener rest event id

/-- The cleanup function returned by `setupWalletListeners`: either the
no-op (capability absent) or the removal of the three registrations. -/
inductive Cleanup where
  | noop
  | removeThree (accId chainId discId : Nat)
deriving DecidableEq

/-- Running a cleanup function against the registry. -/
def applyCleanup : Cleanup → Registry → Registry
  | .noop, reg => reg
  | .removeThree accId chainId discId, reg =>
    removeListener (removeListener (removeListener reg "accountsChanged" accId)
      "chainChanged" chainId) "disconnect" discId

/-- Embedding of `setupWalletListeners` (ethereum helper library, lines
368-403): without the capability, register nothing and return the no-op
cleanup; otherwise register one handler per event (the three wrapper
handlers, identified by `accId`, `chainId`, `discId`) and return the
cleanup removing exactly those three. -/
def setupWalletListeners (present : Bool) (accId chainId discId : Nat)
    (reg : Registry) : Registry × Cleanup :=
  if present then
    (addListener (addListener (addListener reg "accountsChanged" accId)
        "chainChanged" chainId) "disconnect" discId,
      .removeThree accId chainId discId)
  else (reg, .noop)

/-- The provider emitting `event`: every registered handler for it runs,
in registration order, through the interpretation `interp` of handler
identities as session-state transformers. -/
def dispatchEvent (reg : Registry) (interp : Nat → WalletState → WalletState)
    (event : String) (s : WalletState) : WalletState :=
  (reg.filter (fun p => p.1 == event)).foldl (fun st p => interp p.2 st) s

/-! ## Claim theorems -/

/-- C1: if `connect()` is invoked again while a prior `connect()` is still
in flight (`isLoading` set, MetaMask installed), the second invocation is
a silent no-op: across the pair of calls the provider's `requestAccounts`
operation is issued exactly once, and the second call changes nothing and
raises no error or toast. -/
theorem c1_connect_second_call_silent_noop (s0 : WalletState) (h : s0.isLoading = false) :
    ((handleConnectStart true s0).2
        ++ (handleConnectStart true (handleConnectStart true s0).1).2).count
        Effect.requestAccounts = 1
  ∧ handleConnectStart true (handleConnectStart true s0).1
      = ((handleConnectStart true s0).1, []) := by
  constructor
  · simp [handleConnectStart, h, List.count_cons]
  · simp [handleConnectStart, h]

/-- C1 witness: the double-call property at the initial session state. -/
theorem c1_connect_second_call_silent_noop_witness :
    ((handleConnectStart true INITIAL_WALLET_STATE).2
        ++ (handleConnectStart true (handleConnectStart true INITIAL_WALLET_STATE).1).2).count
        Effect.requestAccounts = 1
  ∧ handleConnectStart true (handleConnectStart true INITIAL_WALLET_STATE).1
      = ((handleConnectStart true INITIAL_WALLET_STATE).1, []) :=
  c1_connect_second_call_silent_noop INITIAL_WALLET_STATE rfl

/-- C2: an `accountsChanged` event with an empty account list, delivered
in any connected session state, resets the session to the initial
disconnected state — connection flag false, address, chainId, balance and
error all cleared — and emits the disconnection notification. -/
theorem c2_accountsChanged_empty_resets (s : WalletState) (fetched : Option String)
    (_h : s.isConnected = true) :
    handleAccountsChanged [] fetched s
      = (INITIAL_WALLET_STATE, [Effect.toast "Wallet disconnected" "info"])
  ∧ INITIAL_WALLET_STATE.isConnected = false
  ∧ INITIAL_WALLET_STATE.address = none
  ∧ INITIAL_WALLET_STATE.chainId = none
  ∧ INITIAL_WALLET_STATE.balance = none
  ∧ INITIAL_WALLET_STATE.error = none :=
  ⟨rfl, rfl, rfl, rfl, rfl, rfl⟩

/-- C2 witness: the empty-accounts reset at a concrete connected state. -/
theorem c2_accountsChanged_empty_resets_witness :
    handleAccountsChanged [] none
        { INITIAL_WALLET_STATE with
            isConnected := true,
            address := some "0x52908400098527886e0f7030069857d2e4169ee7",
            chainId := some "0xaa36a7",
            balance := some "1.2" }
      = (INITIAL_WALLET_STATE, [Effect.toast "Wallet disconnected" "info"])
  ∧ INITIAL_WALLET_STATE.isConnected = false
  ∧ INITIAL_WALLET_STATE.address = none
  ∧ INITIAL_WALLET_STATE.chainId = none
  ∧ INITIAL_WALLET_STATE.balance = none
  ∧ INITIAL_WALLET_STATE.error = none :=
  c2_accountsChanged_empty_resets _ none rfl

/-- C3: a submit whose recipient fails address validation or whose amount
fails amount validation never emits the provider send, leaves the transfer
state unchanged (in particular Idle stays Idle); and `sendTransaction`
itself throws on an invalid recipient before any provider interaction. -/
theorem c3_invalid_input_never_sends (fd : TransactionFormData) (ts : TransactionState)
    (o : SendTxOutcome)
    (h : validateRecipient fd.recipient ≠ none ∨ (validateAmount fd.amount).isValid = false) :
    (handleSubmit fd ts o).txState = ts
  ∧ Effect.sendEth ∉ (handleSubmit fd ts o).effects
  ∧ (ts.status = TxStatus.idle → (handleSubmit fd ts o).txState.status = TxStatus.idle)
  ∧ (∀ recipient amount : String, isValidAddress recipient = false →
      (sendTransactionCheck recipient amount).1.isSome = true
      ∧ (sendTransactionCheck recipient amount).2 = []) := by
  have hv : validateForm fd = false := by
    rcases h with h | h
    · simp [validateForm, h]
    · simp [validateForm, h]
  refine ⟨?_, ?_, ?_, ?_⟩
  · simp [handleSubmit, hv]
  · simp [handleSubmit, hv]
  · intro hidle
    simp [handleSubmit, hv, hidle]
  · intro recipient amount hbad
    constructor
    · simp [sendTransactionCheck, hbad]
    · simp [sendTransactionCheck, hbad]

/-- C3 witness: a concrete invalid recipient is rejected without a send. -/
theorem c3_invalid_input_never_sends_witness :
    (handleSubmit ⟨"not-an-address", "1.5"⟩ INITIAL_TRANSACTION_STATE
        (SendTxOutcome.submitted "0xdeadbeef" (WaitOutcome.mined 1))).txState
      = INITIAL_TRANSACTION_STATE
  ∧ Effect.sendEth ∉ (handleSubmit ⟨"not-an-address", "1.5"⟩ INITIAL_TRANSACTION_STATE
        (SendTxOutcome.submitted "0xdeadbeef" (WaitOutcome.mined 1))).effects :=
  ⟨(c3_invalid_input_never_sends ⟨"not-an-address", "1.5"⟩ INITIAL_TRANSACTION_STATE
      (SendTxOutcome.submitted "0xdeadbeef" (WaitOutcome.mined 1)) (Or.inl (by decide))).1,
    (c3_invalid_input_never_sends ⟨"not-an-address", "1.5"⟩ INITIAL_TRANSACTION_STATE
      (SendTxOutcome.submitted "0xdeadbeef" (WaitOutcome.mined 1)) (Or.inl (by decide))).2.1⟩

/-- C4: for every submitted transfer that passes validation, the
completion notification fires exactly once when the run ends in the
confirmed state and zero times otherwise — in particular zero times when
it ends Failed. -/
theorem c4_completion_iff_confirmed (fd : TransactionFormData) (ts : TransactionState)
    (o : SendTxOutcome) (h : validateForm fd = true) :
    (handleSubmit fd ts o).completions
      = (if (handleSubmit fd ts o).txState.status = TxStatus.confirmed then 1 else 0)
  ∧ ((handleSubmit fd ts o).txState.status = TxStatus.failed →
      (handleSubmit fd ts o).completions = 0) := by
  cases o with
  | rejected e => simp [handleSubmit, h]
  | submitted hash w =>
    cases w with
    | mined st =>
      rcases st with _ | st
      · simp [handleSubmit, h]
      · rcases st with _ | st
        · simp [handleSubmit, h]
        · simp [handleSubmit, h]
    | nullReceipt => simp [handleSubmit, h]
    | thrown e => simp [handleSubmit, h]

/-- C4 witness: a concrete confirmed transfer fires the notification
exactly once. -/
theorem c4_completion_iff_confirmed_witness :
    (handleSubmit ⟨"0x52908400098527886e0f7030069857d2e4169ee7", "0.1"⟩
        INITIAL_TRANSACTION_STATE
        (SendTxOutcome.submitted "0xdeadbeef" (WaitOutcome.mined 1))).completions
      = (if (handleSubmit ⟨"0x52908400098527886e0f7030069857d2e4169ee7", "0.1"⟩
          INITIAL_TRANSACTION_STATE
          (SendTxOutcome.submitted "0xdeadbeef" (WaitOutcome.mined 1))).txState.status
          = TxStatus.confirmed then 1 else 0) :=
  (c4_completion_iff_confirmed ⟨"0x52908400098527886e0f7030069857d2e4169ee7", "0.1"⟩
    INITIAL_TRANSACTION_STATE (SendTxOutcome.submitted "0xdeadbeef" (WaitOutcome.mined 1))
    (by decide)).1

/-- C5 counterexample: a broadcast transfer whose receipt reports
execution failure ends with the error string `"Transaction failed on
chain"`, not the claimed `"execution failed on chain"`. -/
theorem c5_error_string_counterexample :
    (handleSubmit ⟨"0x52908400098527886e0f7030069857d2e4169ee7", "0.1"⟩
        INITIAL_TRANSACTION_STATE
        (SendTxOutcome.submitted "0xdeadbeef" (WaitOutcome.mined 0))).txState.error
      = some "Transaction failed on chain"
  ∧ ("Transaction failed on chain" : String) ≠ "execution failed on chain" := by
  constructor
  · decide
  · decide

/-- C5 (amended): a validated transfer that was accepted for broadcast
(hash recorded) and whose awaited receipt reports a non-success status
ends Failed, keeps the hash, carries the error `"Transaction failed on
chain"`, fires no completion notification, and that error is distinct
from the classified message of a user-rejected submission. -/
theorem c5_onchain_failure_distinct_error (fd : TransactionFormData) (ts : TransactionState)
    (hash : String) (st : Nat) (hv : validateForm fd = true) (hst : st ≠ 1) :
    (handleSubmit fd ts (SendTxOutcome.submitted hash (WaitOutcome.mined st))).txState
      = ⟨TxStatus.failed, some hash, some "Transaction failed on chain"⟩
  ∧ (handleSubmit fd ts (SendTxOutcome.submitted hash (WaitOutcome.mined st))).completions = 0
  ∧ parseTransactionError
      ⟨some (ErrCode.num 4001),
        some "MetaMask Tx Signature: User denied transaction signature.", none⟩
      = "Transaction cancelled by user."
  ∧ ("Transaction failed on chain" : String) ≠ "Transaction cancelled by user." := by
  rcases st with _ | st
  · exact ⟨by simp [handleSubmit, hv], by simp [handleSubmit, hv], by decide, by decide⟩
  · rcases st with _ | st
    · exact absurd rfl hst
    · exact ⟨by simp [handleSubmit, hv], by simp [handleSubmit, hv], by decide, by decide⟩

/-- C5 witness: the amended statement at a concrete on-chain failure. -/
theorem c5_onchain_failure_distinct_error_witness :
    (handleSubmit ⟨"0x52908400098527886e0f7030069857d2e4169ee7", "0.1"⟩
        INITIAL_TRANSACTION_STATE
        (SendTxOutcome.submitted "0xdeadbeef" (WaitOutcome.mined 0))).txState
      = ⟨TxStatus.failed, some "0xdeadbeef", some "Transaction failed on chain"⟩
  ∧ (handleSubmit ⟨"0x52908400098527886e0f7030069857d2e4169ee7", "0.1"⟩
        INITIAL_TRANSACTION_STATE
        (SendTxOutcome.submitted "0xdeadbeef" (WaitOutcome.mined 0))).completions = 0 :=
  ⟨(c5_onchain_failure_distinct_error _ INITIAL_TRANSACTION_STATE "0xdeadbeef" 0
      (by decide) (by decide)).1,
    (c5_onchain_failure_distinct_error _ INITIAL_TRANSACTION_STATE "0xdeadbeef" 0
      (by decide) (by decide)).2.1⟩


/-- C6: `validateAddress` accepts exactly the 42-character strings made of
the fixed `"0x"` prefix followed by 40 hexadecimal digits of either
letter-case, and rejects the empty string, strings of wrong length and
strings with non-hex characters (address format modelled from the spec;
ethers' `isAddress` is an external dependency). -/
theorem c6_validateAddress_characterization :
    (∀ s : String, isValidAddress s = true ↔
      (s.data.length = 42 ∧ s.data.take 2 = ['0', 'x']
        ∧ ∀ c ∈ s.data.drop 2, isHexDigitChar c = true))
  ∧ isValidAddress "0x52908400098527886e0f7030069857d2e4169ee7" = true
  ∧ isValidAddress "0x52908400098527886E0F7030069857D2E4169EE7" = true
  ∧ isValidAddress "0x52908400098527886e0F7030069857D2E4169Ee7" = true
  ∧ isValidAddress "" = false
  ∧ isValidAddress "0x52908400098527886e0f7030069857d2e4169ee" = false
  ∧ isValidAddress "0x52908400098527886e0f7030069857d2e4169ee77" = false
  ∧ isValidAddress "0x52908400098527886e0g7030069857d2e4169ee7" = false := by
  refine ⟨?_, by decide, by decide, by decide, by decide, by decide, by decide, by decide⟩
  intro s
  by_cases hs : s.data = []
  · simp [isValidAddress, hs]
  · simp [isValidAddress, hs, isAddress, List.all_eq_true, and_assoc]

/-- C7: `validateAmount` fails with "Amount is required" on empty or
blank input, with "Invalid amount format" when `parseFloat` yields `NaN`,
with "Amount must be greater than 0" when the parsed value is `≤ 0`, with
"Too many decimal places (max 18)" when more than 18 characters follow
the first `"."`, and succeeds otherwise; 18 fractional digits are valid
and 19 are not, and the four failure messages are pairwise distinct. -/
theorem c7_validateAmount_cases :
    (∀ s : String, (s.data = [] ∨ jsTrim s.data = []) →
        validateAmount s = ⟨false, some "Amount is required"⟩)
  ∧ (∀ s : String, ¬(s.data = [] ∨ jsTrim s.data = []) →
        jsIsNaN (jsParseFloat s) = true →
        validateAmount s = ⟨false, some "Invalid amount format"⟩)
  ∧ (∀ s : String, ¬(s.data = [] ∨ jsTrim s.data = []) →
        jsIsNaN (jsParseFloat s) = false → jsLe0 (jsParseFloat s) = true →
        validateAmount s = ⟨false, some "Amount must be greater than 0"⟩)
  ∧ (∀ (s : String) (d : List Char), ¬(s.data = [] ∨ jsTrim s.data = []) →
        jsIsNaN (jsParseFloat s) = false → jsLe0 (jsParseFloat s) = false →
        (splitOnDot s.data)[1]? = some d → 18 < d.length →
        validateAmount s = ⟨false, some "Too many decimal places (max 18)"⟩)
  ∧ (∀ s : String, ¬(s.data = [] ∨ jsTrim s.data = []) →
        jsIsNaN (jsParseFloat s) = false → jsLe0 (jsParseFloat s) = false →
        (∀ d, (splitOnDot s.data)[1]? = some d → d.length ≤ 18) →
        validateAmount s = ⟨true, none⟩)
  ∧ validateAmount "" = ⟨false, some "Amount is required"⟩
  ∧ validateAmount "abc" = ⟨false, some "Invalid amount format"⟩
  ∧ validateAmount "0" = ⟨false, some "Amount must be greater than 0"⟩
  ∧ validateAmount "-1" = ⟨false, some "Amount must be greater than 0"⟩
  ∧ validateAmount "1.123456789012345678" = ⟨true, none⟩
  ∧ validateAmount "1.1234567890123456789"
      = ⟨false, some "Too many decimal places (max 18)"⟩
  ∧ ("Amount is required" : String) ≠ "Invalid amount format"
  ∧ ("Amount is required" : String) ≠ "Amount must be greater than 0"
  ∧ ("Amount is required" : String) ≠ "Too many decimal places (max 18)"
  ∧ ("Invalid amount format" : String) ≠ "Amount must be greater than 0"
  ∧ ("Invalid amount format" : String) ≠ "Too many decimal places (max 18)"
  ∧ ("Amount must be greater than 0" : String) ≠ "Too many decimal places (max 18)" := by
  refine ⟨?_, ?_, ?_, ?_, ?_, by decide, by decide, by decide, by decide, by decide,
    by decide, by decide, by decide, by decide, by decide, by decide, by decide⟩
  · intro s h
    rcases h with h | h
    · simp [validateAmount, h]
    · simp [validateAmount, h]
  · intro s h hn
    simp only [validateAmount]
    rw [if_neg (by simpa using h), if_pos hn]
  · intro s h hn hle
    simp only [validateAmount]
    rw [if_neg (by simpa using h)]
    simp only [hn, Bool.false_eq_true, if_false, hle, if_true]
  · intro s d h hn hle hd hlen
    simp only [validateAmount]
    rw [if_neg (by simpa using h)]
    simp only [hn, Bool.false_eq_true, if_false, hle, hd]
    rw [if_pos]
    have : d ≠ [] := by
      intro he
      subst he
      simp at hlen
    simp [this, List.isEmpty_iff, hlen]
  · intro s h hn hle hd
    simp only [validateAmount]
    rw [if_neg (by simpa using h)]
    simp only [hn, Bool.false_eq_true, if_false, hle]
    rcases he : (splitOnDot s.data)[1]? with _ | d
    · simp
    · have hlen := hd d he
      have hb : (!d.isEmpty && decide (d.length > 18)) = false := by
        have hnot : ¬(d.length > 18) := by omega
        simp [hnot]
      simp [hb]

/-- C7 witness: the blank and NaN branches at concrete inputs. -/
theorem c7_validateAmount_cases_witness :
    validateAmount " " = ⟨false, some "Amount is required"⟩
  ∧ validateAmount "x1" = ⟨false, some "Invalid amount format"⟩ :=
  ⟨c7_validateAmount_cases.1 " " (Or.inr (by decide)),
    c7_validateAmount_cases.2.1 "x1" (by decide) (by decide)⟩


/-- C8: for every raw wei balance, `getBalance` renders the value obtained
by standard 18-decimal formatting truncated — never rounded — to at most
four fractional digits: the rendered value is exactly
`wei / 10 ^ 14 * 10 ^ 14`, hence never above the true balance and less
than `10 ^ 14` wei below it; a whole-number formatted value is returned
unchanged, `1.2` ETH renders as `"1.2"`, and `1.23456789` ETH renders as
`"1.2345"`. -/
theorem c8_getBalance_truncates :
    (∀ wei : Nat, weiValue (getBalance wei) = some (wei / 10 ^ 14 * 10 ^ 14)
      ∧ wei / 10 ^ 14 * 10 ^ 14 ≤ wei
      ∧ wei < wei / 10 ^ 14 * 10 ^ 14 + 10 ^ 14)
  ∧ getBalance 1200000000000000000 = "1.2"
  ∧ getBalance 1234567890000000000 = "1.2345"
  ∧ getBalance 2000000000000000000 = "2"
  ∧ getBalance 1999999999999999999 = "1.9999" := by
  refine ⟨fun wei => ⟨weiValue_getBalance wei, Nat.div_mul_le_self _ _, by omega⟩,
    by decide, by decide, by decide, by decide⟩

/-- C9 counterexample: a state reached by a successful connect stores the
address exactly as the provider returned it — here containing uppercase
letters — so the stored address is not lowercase-normalized. -/
theorem c9_address_not_lowercased_counterexample :
    Reachable (handleConnectFinish
        (ConnectResult.success "0x52908400098527886E0F7030069857D2E4169EE7" "0xaa36a7" "1.2")
        (handleConnectStart true INITIAL_WALLET_STATE).1).1
  ∧ (handleConnectFinish
        (ConnectResult.success "0x52908400098527886E0F7030069857D2E4169EE7" "0xaa36a7" "1.2")
        (handleConnectStart true INITIAL_WALLET_STATE).1).1.address
      = some "0x52908400098527886E0F7030069857D2E4169EE7"
  ∧ ¬(("0x52908400098527886E0F7030069857D2E4169EE7" : String).data.all
        (fun c => !(65 ≤ c.toNat && c.toNat ≤ 90)) = true) := by
  refine ⟨Reachable.connectFinish _ (Reachable.connectStart true Reachable.init) rfl,
    rfl, by decide⟩

/-- C9 (amended): in every reachable session state the stored address is
present exactly when the connection status is Connected; the stored
address is whatever string the provider supplied, with no lowercase
normalization performed by the session operations. -/
theorem c9_address_present_iff_connected (s : WalletState) (h : Reachable s) :
    s.address.isSome = s.isConnected := by
  induction h with
  | init => rfl
  | connectStart installed _ ih =>
    rename_i s _
    by_cases hl : s.isLoading
    · simp [handleConnectStart, hl, ih]
    · by_cases hi : installed
      · simp [handleConnectStart, hl, hi, ih]
      · simp [handleConnectStart, hl, hi, ih]
  | connectFinish r _ _ ih =>
    cases r with
    | success address chainId balance => simp [handleConnectFinish]
    | failure e => simp [handleConnectFinish, ih]
  | disconnect _ _ => rfl
  | accountsChanged accounts fetched _ hconn ih =>
    rename_i s _
    cases accounts with
    | nil => rfl
    | cons newAddress rest =>
      by_cases hne : s.address ≠ some newAddress
      · cases fetched with
        | none => simp [handleAccountsChanged, hne, refreshBalance, hconn]
        | some b => simp [handleAccountsChanged, hne, refreshBalance, hconn]
      · simp [handleAccountsChanged, hne, ih]
  | chainChanged chainId fetched _ _ ih =>
    simp only [handleChainChanged]
    split
    · cases fetched with
      | none => simpa [refreshBalance] using ih
      | some b => simpa [refreshBalance] using ih
    · simpa using ih
  | refreshBal fetched _ ih =>
    cases fetched with
    | none => simp [refreshBalance, ih]
    | some b => simp [refreshBalance, ih]
  | checkExisting accounts queries _ ih =>
    cases accounts with
    | nil => simp [checkExistingConnection, ih]
    | cons address rest =>
      cases queries with
      | none => simp [checkExistingConnection, ih]
      | some q => simp [checkExistingConnection]

/-- C9 witness: the presence-iff-connected invariant at a concrete
reachable connected state. -/
theorem c9_address_present_iff_connected_witness :
    (handleConnectFinish
        (ConnectResult.success "0x52908400098527886e0f7030069857d2e4169ee7" "0xaa36a7" "1.2")
        (handleConnectStart true INITIAL_WALLET_STATE).1).1.address.isSome
      = (handleConnectFinish
          (ConnectResult.success "0x52908400098527886e0f7030069857d2e4169ee7" "0xaa36a7" "1.2")
          (handleConnectStart true INITIAL_WALLET_STATE).1).1.isConnected :=
  c9_address_present_iff_connected _
    (Reachable.connectFinish _ (Reachable.connectStart true Reachable.init) rfl)

theorem removeListener_append_of_not_mem {reg : Registry} {event : String} {id : Nat}
    (h : (event, id) ∉ reg) (t : Registry) :
    removeListener (reg ++ (event, id) :: t) event id = reg ++ t := by
  induction reg with
  | nil => simp [removeListener]
  | cons p rest ih =>
    have hp : p ≠ (event, id) := fun he => h (he ▸ List.mem_cons_self p rest)
    simp only [List.cons_append, removeListener, if_neg hp]
    exact congrArg (p :: ·) (ih (fun hm => h (List.mem_cons_of_mem p hm)))

theorem removeListener_of_not_mem {reg : Registry} {event : String} {id : Nat}
    (h : (event, id) ∉ reg) : removeListener reg event id = reg := by
  induction reg with
  | nil => rfl
  | cons p rest ih =>
    have hp : p ≠ (event, id) := fun he => h (he ▸ List.mem_cons_self p rest)
    simp only [removeListener, if_neg hp]
    rw [ih (fun hm => h (List.mem_cons_of_mem p hm))]

/-- C10: without the wallet capability, `setupWalletListeners` registers
nothing and returns the no-op cleanup; with it, it registers exactly one
handler per event (`accountsChanged`, `chainChanged`, `disconnect`), and
the returned cleanup removes exactly those three registrations, is
idempotent on repeated calls, and after the disconnect-driven cleanup a
subsequent provider event dispatch has no effect on the session state. -/
theorem c10_setupWalletListeners_spec (reg : Registry) (accId chId discId : Nat)
    (h1 : ("accountsChanged", accId) ∉ reg)
    (h2 : ("chainChanged", chId) ∉ reg)
    (h3 : ("disconnect", discId) ∉ reg) :
    (setupWalletListeners false accId chId discId reg = (reg, Cleanup.noop)
      ∧ ∀ r : Registry, applyCleanup Cleanup.noop r = r)
  ∧ (setupWalletListeners true accId chId discId reg).1
      = reg ++ [("accountsChanged", accId), ("chainChanged", chId), ("disconnect", discId)]
  ∧ applyCleanup (setupWalletListeners true accId chId discId reg).2
      (setupWalletListeners true accId chId discId reg).1 = reg
  ∧ applyCleanup (setupWalletListeners true accId chId discId reg).2
      (applyCleanup (setupWalletListeners true accId chId discId reg).2
        (setupWalletListeners true accId chId discId reg).1)
      = applyCleanup (setupWalletListeners true accId chId discId reg).2
          (setupWalletListeners true accId chId discId reg).1
  ∧ (∀ (interp : Nat → WalletState → WalletState) (event : String) (s : WalletState),
      dispatchEvent
        (applyCleanup (setupWalletListeners true accId chId discId []).2
          (setupWalletListeners true accId chId discId []).1) interp event s = s) := by
  have hshape : (setupWalletListeners true accId chId discId reg).1
      = reg ++ [("accountsChanged", accId), ("chainChanged", chId), ("disconnect", discId)] := by
    simp [setupWalletListeners, addListener]
  have hclean : applyCleanup (setupWalletListeners true accId chId discId reg).2
      (setupWalletListeners true accId chId discId reg).1 = reg := by
    rw [hshape]
    show removeListener (removeListener (removeListener
      (reg ++ ("accountsChanged", accId)
        :: [("chainChanged", chId), ("disconnect", discId)]) "accountsChanged" accId)
      "chainChanged" chId) "disconnect" discId = reg
    rw [removeListener_append_of_not_mem h1]
    rw [show reg ++ [("chainChanged", chId), ("disconnect", discId)]
      = reg ++ ("chainChanged", chId) :: [("disconnect", discId)] from rfl,
      removeListener_append_of_not_mem h2]
    rw [show reg ++ [("disconnect", discId)]
      = reg ++ ("disconnect", discId) :: [] from rfl,
      removeListener_append_of_not_mem h3, List.append_nil]
  refine ⟨⟨rfl, fun r => rfl⟩, hshape, hclean, ?_, ?_⟩
  · rw [hclean]
    show removeListener (removeListener (removeListener reg "accountsChanged" accId)
      "chainChanged" chId) "disconnect" discId = reg
    rw [removeListener_of_not_mem h1, removeListener_of_not_mem h2,
      removeListener_of_not_mem h3]
  · intro interp event s
    have hz : applyCleanup (setupWalletListeners true accId chId discId []).2
        (setupWalletListeners true accId chId discId []).1 = [] := by
      have hs : (setupWalletListeners true accId chId discId ([] : Registry)).1
          = [] ++ [("accountsChanged", accId), ("chainChanged", chId), ("disconnect", discId)] := by
        simp [setupWalletListeners, addListener]
      rw [hs]
      show removeListener (removeListener (removeListener
        (([] : Registry) ++ ("accountsChanged", accId)
          :: [("chainChanged", chId), ("disconnect", discId)]) "accountsChanged" accId)
        "chainChanged" chId) "disconnect" discId = []
      rw [removeListener_append_of_not_mem (List.not_mem_nil _)]
      rw [show ([] : Registry) ++ [("chainChanged", chId), ("disconnect", discId)]
        = ([] : Registry) ++ ("chainChanged", chId) :: [("disconnect", discId)] from rfl,
        removeListener_append_of_not_mem (List.not_mem_nil _)]
      rw [show ([] : Registry) ++ [("disconnect", discId)]
        = ([] : Registry) ++ ("disconnect", discId) :: [] from rfl,
        removeListener_append_of_not_mem (List.not_mem_nil _)]
      rfl
    rw [hz]
    rfl

/-- C10 witness: the registration/cleanup round-trip at concrete fresh
handler identities over the empty registry. -/
theorem c10_setupWalletListeners_spec_witness :
    applyCleanup (setupWalletListeners true 0 1 2 []).2
      (setupWalletListeners true 0 1 2 []).1 = [] :=
  (c10_setupWalletListeners_spec [] 0 1 2 (List.not_mem_nil _) (List.not_mem_nil _)
    (List.not_mem_nil _)).2.2.1

end Web3
